import Mathlib

/-!
# Verification of the nornir core dispatch engine

Shallow embedding of `src/nornir/core/__init__.py` (classes `Data` and
`Nornir`) together with spec-modelled stubs for the external collaborators
that file imports but that are not part of the sources (the task scheduler,
the configuration object, the inventory and the result containers).

Modelling conventions:
* a Python `dict` that is iterated in insertion order becomes a Lean `List`;
* a Python `set` becomes a `Finset String`;
* object identity (needed because `filter` shares the `Data` object and
  re-points `inventory.nornir`) is modelled by a store of objects indexed
  by natural numbers;
* exceptions raised by `run` become `Except`.
-/

namespace Nornir

/-- A target endpoint.  In the inventory dictionary the key of each entry is
the host's `name`, so we keep a single list of hosts and use `name` both as
the iteration key and as the key of the results mapping.  `connections` is
the host's table of open connection handles (we track only their names). -/
structure Host where
  name : String
  connections : List String
deriving DecidableEq, Repr

/-- Embeds class `Data` (src/nornir/core/__init__.py, lines 12-36): the
object shared amongst the versions of a session produced by `filter`.
`failed_hosts` is a Python `set`, modelled as a `Finset`; `dry_run` is
assigned onto the object by `Nornir.__init__`.  The `available_connections`
dictionary is not modelled: no claim mentions it. -/
structure Data where
  failed_hosts : Finset String
  dry_run : Bool
deriving DecidableEq

/-- Embeds `Data.__init__` (lines 22-24): starts with an empty failed set
and the default connection registry.  `dry_run` is attached
by `Nornir.__init__` immediately after construction; we take it as an
argument. -/
def Data.init (dryRun : Bool) : Data :=
  { failed_hosts := ∅, dry_run := dryRun }

/-- Embeds `Data.recover_host` (lines 26-28): `self.failed_hosts.discard(host)`. -/
def Data.recover_host (d : Data) (host : String) : Data :=
  { d with failed_hosts := d.failed_hosts.erase host }

/-- Embeds `Data.reset_failed_hosts` (lines 30-32): `self.failed_hosts = set()`. -/
def Data.reset_failed_hosts (d : Data) : Data :=
  { d with failed_hosts := ∅ }

/-- Modelled from the spec: `nornir.core.configuration.Config` is not under
src/.  The core reads exactly two fields from it during `run`: the
parallelism default (`self.config.num_workers`) and the error-raising policy
default (`self.config.raise_on_error`). -/
structure Config where
  num_workers : Nat
  raise_on_error : Bool
deriving DecidableEq, Repr

/-- Modelled from the spec: `nornir.core.task.Result` is not under src/.
Per spec section 3 a Result carries the target name and a `failed` flag that
is true iff the work function raised; the payload value is irrelevant to
every claim, so only the failure tag is kept. -/
structure Result where
  host : String
  failed : Bool
deriving DecidableEq, Repr

/-- Modelled from the spec: `nornir.core.task.AggregatedResult` is not under
src/.  Per spec section 3 it is an ordered mapping target-name to Result. -/
structure AggregatedResult where
  results : List (String × Result)
deriving DecidableEq, Repr

/-- The keys of the ordered results mapping, in order. -/
def AggregatedResult.keys (agg : AggregatedResult) : List String :=
  agg.results.map Prod.fst

/-- Derived query (spec section 3): `failed` is true iff any contained
Result is failed. -/
def AggregatedResult.failed (agg : AggregatedResult) : Bool :=
  agg.results.any (fun p => p.2.failed)

/-- Derived query (spec section 3): the names of the failed entries
(`result.failed_hosts.keys()` in `Nornir.run`). -/
def AggregatedResult.failedNames (agg : AggregatedResult) : List String :=
  (agg.results.filter (fun p => p.2.failed)).map Prod.fst

/-- The outcome of executing the work function once against one host: the
failure tag of the produced Result, and the (possibly mutated in place)
host object.  Work functions are arbitrary callables; a claim's theorem
quantifies over this function. -/
structure TaskOut where
  failed : Bool
  host : Host
deriving DecidableEq, Repr

/-- Modelled from the spec: `TaskScheduler.run_serial` is not under src/.
Spec section 4.2: iterates targets in collection order, executes the bound
work function once per target, captures result or exception per target,
assembles in order. -/
def TaskScheduler.run_serial (task : Host → TaskOut) (run_on : List Host) :
    AggregatedResult :=
  ⟨run_on.map (fun h => (h.name, { host := h.name, failed := (task h).failed }))⟩

/-- Modelled from the spec: `TaskScheduler.run_parallel` is not under src/.
Spec sections 4.2 and 5: execution units run concurrently with no ordering
guarantee on completion, but the AggregatedResult must be assembled in
original target order regardless of completion order, with one entry per
target; the worker bound `min(numWorkers, len(run_on))` affects wall-clock
concurrency only.  Hence its observable value equals the in-order assembly. -/
def TaskScheduler.run_parallel (task : Host → TaskOut) (numWorkers : Nat)
    (run_on : List Host) : AggregatedResult :=
  let _ := min numWorkers run_on.length
  ⟨run_on.map (fun h => (h.name, { host := h.name, failed := (task h).failed }))⟩

/-- Embeds line 183, `num_workers = num_workers or self.config.num_workers`:
Python `or` falls through to the configured default when the explicit
argument is falsy, i.e. absent (`None`) or `0`. -/
def resolveNumWorkers (numWorkers : Option Nat) (cfg : Config) : Nat :=
  match numWorkers with
  | some n => if n = 0 then cfg.num_workers else n
  | none => cfg.num_workers

/-- Embeds lines 209-211: `raise_on_error if raise_on_error is not None else
self.config.raise_on_error`. -/
def resolveRaiseOnError (raiseOnError : Option Bool) (cfg : Config) : Bool :=
  raiseOnError.getD cfg.raise_on_error

/-- The dispatch decision of lines 204-207: serial when the resolved worker
count equals 1, pooled parallel execution with that bound otherwise. -/
inductive Schedule where
  | serial : Schedule
  | parallel : Nat → Schedule
deriving DecidableEq, Repr

/-- Embeds the branch at lines 204-207 of `Nornir.run`. -/
def scheduleOf (numWorkers : Option Nat) (cfg : Config) : Schedule :=
  let n := resolveNumWorkers numWorkers cfg
  if n = 1 then Schedule.serial else Schedule.parallel n

/-- Runs the chosen scheduler entry point. -/
def execSchedule : Schedule → (Host → TaskOut) → List Host → AggregatedResult
  | Schedule.serial, task, run_on => TaskScheduler.run_serial task run_on
  | Schedule.parallel n, task, run_on => TaskScheduler.run_parallel task n run_on

/-- Embeds lines 185-193 of `Nornir.run`: the working target list.  When
`on_good`, the hosts of the inventory (in iteration order) whose name is not
in the failed set are appended; when `on_failed`, the hosts whose name is in
the failed set are appended after them. -/
def runOnList (inv : List Host) (failed : Finset String)
    (onGood onFailed : Bool) : List Host :=
  (if onGood then inv.filter (fun h => decide (h.name ∉ failed)) else []) ++
    (if onFailed then inv.filter (fun h => decide (h.name ∈ failed)) else [])

/-- Whether a host of the inventory is put on the working list (and hence
has the work function executed against it, mutating the host object). -/
def selectedHost (failed : Finset String) (onGood onFailed : Bool)
    (h : Host) : Bool :=
  (onGood && decide (h.name ∉ failed)) || (onFailed && decide (h.name ∈ failed))

/-- The AggregatedResult computed by a `run` invocation (lines 183-207),
before the raise-on-error policy of lines 209-216 is applied. -/
def runResult (inv : List Host) (d : Data) (cfg : Config)
    (task : Host → TaskOut) (numWorkers : Option Nat)
    (onGood onFailed : Bool) : AggregatedResult :=
  execSchedule (scheduleOf numWorkers cfg) task
    (runOnList inv d.failed_hosts onGood onFailed)

/-- Embeds `Nornir.run` (lines 155-216) as a function of the session state
(inventory hosts plus shared `Data`).  Returns the raised aggregate error or
the returned AggregatedResult, together with the inventory after the
in-place mutations the work function made to the selected hosts, and the
`Data` after the failed-set bookkeeping.  `result.raise_on_error()` (line
213) is modelled from the spec: it raises an aggregate execution error
carrying the AggregatedResult exactly when some target failed. -/
def runModel (inv : List Host) (d : Data) (cfg : Config)
    (task : Host → TaskOut) (numWorkers : Option Nat)
    (raiseOnError : Option Bool) (onGood onFailed : Bool) :
    Except AggregatedResult AggregatedResult × List Host × Data :=
  let result := runResult inv d cfg task numWorkers onGood onFailed
  let inv' := inv.map
    (fun h => if selectedHost d.failed_hosts onGood onFailed h
      then (task h).host else h)
  if resolveRaiseOnError raiseOnError cfg then
    (if result.failed then Except.error result else Except.ok result, inv', d)
  else
    (Except.ok result, inv',
      { d with failed_hosts := d.failed_hosts ∪ result.failedNames.toFinset })

/-! ## Object store

`Nornir.filter` builds the clone with `Nornir(dry_run=self.dry_run,
**self.__dict__)`, so the clone receives the parent's `data`, `inventory`
and `config` attributes by reference, and `Nornir.__init__` mutates the
received inventory's `nornir` back-reference.  To state claims about this
aliasing we model objects by indices into a store. -/

/-- An inventory object: the ordered hosts mapping together with the
`nornir` back-reference that `Nornir.__init__` (line 74) assigns. -/
structure InvObj where
  hosts : List Host
  nornir : Option Nat
deriving DecidableEq

/-- A session object (class `Nornir`): references to its `data` and
`inventory` objects plus its configuration.  The logger is not modelled. -/
structure SessionObj where
  dataRef : Nat
  invRef : Nat
  config : Config
deriving DecidableEq

/-- The store of allocated objects; a reference is an index into the
corresponding list, and allocation appends. -/
structure Store where
  datas : List Data
  invs : List InvObj
  sessions : List SessionObj
deriving DecidableEq

instance : Inhabited Data := ⟨Data.init false⟩
instance : Inhabited InvObj := ⟨⟨[], none⟩⟩
instance : Inhabited SessionObj := ⟨⟨0, 0, ⟨0, false⟩⟩⟩

/-- Embeds `Nornir.__init__` (lines 60-85) over the store, keeping the
statements it performs in source order: `self.data = data or Data()`;
`self.inventory = inventory`; `self.inventory.nornir = self`;
`self.data.dry_run = dry_run`; `self.config = config or Config()`.
Logging configuration and the `available_connections` override are not
modelled.  Returns the reference of the freshly allocated session. -/
def init (st : Store) (invRef : Nat) (dryRun : Bool) (config : Config)
    (dataArg : Option Nat) : Nat × Store :=
  let sRef := st.sessions.length
  let (dataRef, datas) :=
    match dataArg with
    | some r => (r, st.datas)
    | none => (st.datas.length, st.datas ++ [Data.init false])
  let invs := st.invs.set invRef
    { st.invs.getD invRef default with nornir := some sRef }
  let datas := datas.set dataRef
    { datas.getD dataRef default with dry_run := dryRun }
  (sRef, { datas := datas, invs := invs,
           sessions := st.sessions ++ [⟨dataRef, invRef, config⟩] })

/-- Modelled from the spec: `Inventory.filter` is not under src/.  Spec
section 6: it produces a new Inventory whose ordered mapping keeps exactly
the targets matching the criteria; the abstract criteria are taken as one
predicate.  The back-reference of the new object plays no role in any
claim; it is copied from the source inventory. -/
def invFilter (source : InvObj) (pred : Host → Bool) : InvObj :=
  { hosts := source.hosts.filter pred, nornir := source.nornir }

/-- Embeds `Nornir.filter` (lines 144-153): `b = Nornir(dry_run=self.dry_run,
**self.__dict__)` passes the parent's `data`, `inventory` and `config` by
reference to `init`; then `b.inventory = self.inventory.filter(...)`
replaces only `b`'s inventory reference with a freshly allocated filtered
inventory.  Returns the reference of the new session `b`. -/
def filter (st : Store) (sRef : Nat) (pred : Host → Bool) : Nat × Store :=
  let s := st.sessions.getD sRef default
  let dry := (st.datas.getD s.dataRef default).dry_run
  let (bRef, st1) := init st s.invRef dry s.config (some s.dataRef)
  let newInv := invFilter (st1.invs.getD s.invRef default) pred
  let newInvRef := st1.invs.length
  (bRef,
    { datas := st1.datas, invs := st1.invs ++ [newInv],
      sessions := st1.sessions.set bRef
        { st1.sessions.getD bRef default with invRef := newInvRef } })

/-- Embeds `Nornir.run` over the store: reads the session's inventory and shared
data through their references, applies `runModel`, and writes the mutated
hosts and updated data back through the same references. -/
def runHeap (st : Store) (sRef : Nat) (task : Host → TaskOut)
    (numWorkers : Option Nat) (raiseOnError : Option Bool)
    (onGood onFailed : Bool) :
    Except AggregatedResult AggregatedResult × Store :=
  let s := st.sessions.getD sRef default
  let inv := st.invs.getD s.invRef default
  let d := st.datas.getD s.dataRef default
  let r := runModel inv.hosts d s.config task numWorkers raiseOnError
    onGood onFailed
  (r.1,
    { st with invs := st.invs.set s.invRef { inv with hosts := r.2.1 },
              datas := st.datas.set s.dataRef r.2.2 })

/-! ## Scoped sessions and connection closing -/

/-- Modelled from the spec: `Host.close_connections` is not under src/.
Spec section 8: closing drains the target's open-connections table, leaving
it empty; closing an already-closed target is a no-op, not an error. -/
def Host.close_connections (h : Host) : Host :=
  { h with connections := [] }

/-- Embeds the inner task of `Nornir.close_connections` (lines 227-228):
it closes the host's connections and returns nothing, so it never fails. -/
def close_connections_task (h : Host) : TaskOut :=
  { failed := false, host := h.close_connections }

/-- Embeds `Nornir.close_connections` (lines 226-230): dispatches the
closing task through `self.run` with the given selection flags and default
`num_workers` and `raise_on_error`, yielding the updated session state. -/
def close_connections (inv : List Host) (d : Data) (config : Config)
    (onGood onFailed : Bool) : List Host × Data :=
  (runModel inv d config close_connections_task none none onGood onFailed).2

/-- Embeds `Nornir.__exit__` (lines 90-91):
`self.close_connections(on_good=True, on_failed=True)`. -/
def sessionExit (inv : List Host) (d : Data) (config : Config) :
    List Host × Data :=
  close_connections inv d config true true

/-- Modelled from the spec: the scoped-session block (`with` statement,
spec section 5).  The body transforms the session state and may signal an
exception of type ε; `__exit__` runs on every exit path, normal or
exceptional, after which a signalled exception propagates. -/
def withSession {ε : Type} (inv : List Host) (d : Data) (config : Config)
    (body : List Host × Data → (List Host × Data) × Option ε) :
    (List Host × Data) × Option ε :=
  let r := body (inv, d)
  (sessionExit r.1.1 r.1.2 config, r.2)

/-! ## Spec-side reading of the result order, and sequencing helpers -/

/-- Written from the spec's words, for comparison with the code: "result
order equals target-collection order", i.e. the selected targets listed in
plain inventory iteration order (spec section 8, first testable property). -/
def iterationOrderNames (inv : List Host) (failed : Finset String)
    (onGood onFailed : Bool) : List String :=
  (inv.filter (selectedHost failed onGood onFailed)).map Host.name

/-- The arguments of one `run` invocation. -/
structure RunArgs where
  task : Host → TaskOut
  numWorkers : Option Nat
  raiseOnError : Option Bool
  onGood : Bool
  onFailed : Bool

/-- The session state (inventory hosts, shared data) after one `run`
invocation, the returned or raised result being discarded. -/
def applyRun (config : Config) (st : List Host × Data) (a : RunArgs) :
    List Host × Data :=
  (runModel st.1 st.2 config a.task a.numWorkers a.raiseOnError
    a.onGood a.onFailed).2

/-- The session state after a sequence of `run` invocations. -/
def applyRuns (config : Config) (calls : List RunArgs)
    (st : List Host × Data) : List Host × Data :=
  calls.foldl (applyRun config) st

/-- The store after a sequence of `filter` calls, each naming the session
reference it is invoked on and the filtering criteria. -/
def applyFilters (st : Store) (calls : List (Nat × (Host → Bool))) : Store :=
  calls.foldl (fun acc c => (filter acc c.1 c.2).2) st

/-! ## Concrete fixtures used by witnesses and counterexamples -/

/-- A host named "a" with no open connections. -/
def hostA : Host := ⟨"a", []⟩

/-- A host named "b" with no open connections. -/
def hostB : Host := ⟨"b", []⟩

/-- A two-host inventory in iteration order a, b. -/
def invAB : List Host := [hostA, hostB]

/-- Shared data whose failed set already holds host "a". -/
def dataFailedA : Data := ⟨{"a"}, false⟩

/-- Shared data with an empty failed set. -/
def dataClean : Data := ⟨∅, false⟩

/-- A configuration with the documented worker default and a non-raising
error policy. -/
def cfgNoRaise : Config := ⟨20, false⟩

/-- A configuration whose raise-on-error default is on. -/
def cfgRaise : Config := ⟨20, true⟩

/-- A work function that succeeds on every host and leaves it unchanged. -/
def taskOk : Host → TaskOut := fun h => ⟨false, h⟩

/-- A work function that fails on every host. -/
def taskFailAll : Host → TaskOut := fun h => ⟨true, h⟩

/-- A work function failing exactly on host "b". -/
def taskFailB : Host → TaskOut := fun h => ⟨h.name = "b", h⟩

/-- A one-session store over the a, b inventory with a clean shared data
object. -/
def storeAB : Store :=
  { datas := [dataClean], invs := [⟨invAB, some 0⟩], sessions := [⟨0, 0, cfgNoRaise⟩] }

/-! ## General lemmas about the run pipeline -/

/-- The parallel scheduler's observable value coincides with the serial one
(spec sections 4.2 and 5: assembly in submission order). -/
theorem run_parallel_eq_run_serial (task : Host → TaskOut) (n : Nat)
    (run_on : List Host) :
    TaskScheduler.run_parallel task n run_on =
      TaskScheduler.run_serial task run_on := rfl

/-- Whatever the dispatch decision, the computed AggregatedResult is the
in-order assembly over the working list. -/
theorem runResult_eq_serial (inv : List Host) (d : Data) (cfg : Config)
    (task : Host → TaskOut) (nw : Option Nat) (onG onF : Bool) :
    runResult inv d cfg task nw onG onF =
      TaskScheduler.run_serial task (runOnList inv d.failed_hosts onG onF) := by
  unfold runResult scheduleOf
  by_cases h : resolveNumWorkers nw cfg = 1 <;>
    simp [h, execSchedule, run_parallel_eq_run_serial]

/-- The keys of a serial assembly are the names of the scheduled hosts. -/
theorem run_serial_keys (task : Host → TaskOut) (run_on : List Host) :
    (TaskScheduler.run_serial task run_on).keys = run_on.map Host.name := by
  simp [TaskScheduler.run_serial, AggregatedResult.keys, Function.comp]

/-- The result keys are the names of the working list, in order. -/
theorem runResult_keys (inv : List Host) (d : Data) (cfg : Config)
    (task : Host → TaskOut) (nw : Option Nat) (onG onF : Bool) :
    (runResult inv d cfg task nw onG onF).keys =
      (runOnList inv d.failed_hosts onG onF).map Host.name := by
  rw [runResult_eq_serial, run_serial_keys]

/-- Membership in the working list, by the two selection clauses. -/
theorem mem_runOnList (inv : List Host) (failed : Finset String)
    (onG onF : Bool) (h : Host) :
    h ∈ runOnList inv failed onG onF ↔
      h ∈ inv ∧ ((onG = true ∧ h.name ∉ failed) ∨
        (onF = true ∧ h.name ∈ failed)) := by
  cases onG <;> cases onF <;> simp [runOnList, List.mem_filter] <;> tauto

/-- Filtering the inventory keeps the host names free of duplicates. -/
theorem filter_map_name_nodup (inv : List Host) (p : Host → Bool)
    (hnd : (inv.map Host.name).Nodup) :
    ((inv.filter p).map Host.name).Nodup :=
  List.Nodup.sublist (List.Sublist.map Host.name (List.filter_sublist inv)) hnd

/-- With duplicate-free host names, the working list has duplicate-free
names: the good and failed segments are individually duplicate-free and
their name sets are disjoint, the selection predicates being complementary. -/
theorem runOnList_map_name_nodup (inv : List Host) (failed : Finset String)
    (onG onF : Bool) (hnd : (inv.map Host.name).Nodup) :
    ((runOnList inv failed onG onF).map Host.name).Nodup := by
  unfold runOnList
  rw [List.map_append]
  apply List.Nodup.append
  · cases onG <;> simp [filter_map_name_nodup inv _ hnd]
  · cases onF <;> simp [filter_map_name_nodup inv _ hnd]
  · intro n hg hf
    cases onG <;> cases onF <;> simp_all [List.mem_filter]
    obtain ⟨a, ⟨-, ha⟩, rfl⟩ := hg
    obtain ⟨b, ⟨-, hb⟩, hb2⟩ := hf
    exact ha (hb2 ▸ hb)

/-! ## Claim C5 -/

/-- C5: the working target list built by `run` (lines 185-193) contains the
inventory targets outside the failed set when `on_good` is true and the
inventory targets inside the failed set when `on_failed` is true, and every
target appears at most once in it even when both flags are true. -/
theorem claim5_working_list (inv : List Host) (failed : Finset String)
    (onG onF : Bool) (hnd : (inv.map Host.name).Nodup) :
    (∀ h : Host, h ∈ runOnList inv failed onG onF ↔
      h ∈ inv ∧ ((onG = true ∧ h.name ∉ failed) ∨
        (onF = true ∧ h.name ∈ failed))) ∧
    ∀ h : Host, (runOnList inv failed onG onF).count h ≤ 1 := by
  refine ⟨fun h => mem_runOnList inv failed onG onF h, fun h => ?_⟩
  have hnod : (runOnList inv failed onG onF).Nodup :=
    (runOnList_map_name_nodup inv failed onG onF hnd).of_map
  exact List.nodup_iff_count_le_one.mp hnod h

/-- Witness for C5 at a concrete inventory with host "a" failed and both
selection flags on. -/
theorem claim5_witness :
    (invAB.map Host.name).Nodup ∧
    (runOnList invAB {"a"} true true).count hostA ≤ 1 :=
  ⟨by decide, (claim5_working_list invAB {"a"} true true (by decide)).2 hostA⟩

/-! ## Claim C7 -/

/-- C7 counterexample: with the configured default 20 and the explicit
argument 0, the claim says the effective worker count is the explicit 0,
but `num_workers or self.config.num_workers` (line 183) treats 0 as falsy
and yields the default 20. -/
theorem claim7_counterexample :
    resolveNumWorkers (some 0) cfgNoRaise = 20 ∧ (20 : Nat) ≠ 0 := by decide

/-- C7 (amended): the effective worker count is the explicit `num_workers`
argument when a non-zero one is given; an absent or zero argument falls
back to the configured default (Python falsiness of `None` and `0`).  Run
dispatches to serial execution exactly when the effective count equals 1
and to pooled parallel execution bounded by the effective count otherwise. -/
theorem claim7_workers_dispatch (cfg : Config) (nw : Option Nat) :
    (∀ n : Nat, n ≠ 0 → resolveNumWorkers (some n) cfg = n) ∧
    resolveNumWorkers none cfg = cfg.num_workers ∧
    resolveNumWorkers (some 0) cfg = cfg.num_workers ∧
    (scheduleOf nw cfg = Schedule.serial ↔ resolveNumWorkers nw cfg = 1) ∧
    (resolveNumWorkers nw cfg ≠ 1 →
      scheduleOf nw cfg = Schedule.parallel (resolveNumWorkers nw cfg)) := by
  refine ⟨fun n hn => by simp [resolveNumWorkers, hn], rfl,
    by simp [resolveNumWorkers], ?_, ?_⟩
  · unfold scheduleOf
    by_cases h : resolveNumWorkers nw cfg = 1 <;> simp [h]
  · intro h
    unfold scheduleOf
    simp [h]

/-- Witness for C7 (amended) at the default configuration. -/
theorem claim7_witness :
    resolveNumWorkers (some 3) cfgNoRaise = 3 ∧
    (scheduleOf (some 1) cfgNoRaise = Schedule.serial ↔
      resolveNumWorkers (some 1) cfgNoRaise = 1) :=
  ⟨(claim7_workers_dispatch cfgNoRaise (some 3)).1 3 (by decide),
   (claim7_workers_dispatch cfgNoRaise (some 1)).2.2.2.1⟩

/-! ## Claim C9 -/

/-- C9: when the effective raise-on-error policy is true, `run` leaves the
shared data object, hence the persistent failed set, unchanged — also when
targets failed and the aggregate error is raised (lines 212-213 never touch
`self.data.failed_hosts`). -/
theorem claim9_failed_set_unchanged_on_raise (inv : List Host) (d : Data)
    (cfg : Config) (task : Host → TaskOut) (nw : Option Nat)
    (ro : Option Bool) (onG onF : Bool)
    (h : resolveRaiseOnError ro cfg = true) :
    (runModel inv d cfg task nw ro onG onF).2.2 = d := by
  simp [runModel, h]

/-- Witness for C9: a run whose every target fails, under a raising policy,
leaves the clean data object clean. -/
theorem claim9_witness :
    (runModel invAB dataClean cfgRaise taskFailAll none none true false).2.2 =
      dataClean :=
  claim9_failed_set_unchanged_on_raise invAB dataClean cfgRaise taskFailAll
    none none true false (by decide)

/-! ## Claim C3 -/

/-- C3: the raise-on-error handling of lines 209-216.  With effective
policy true and at least one failed target, `run` raises the aggregate
error carrying the full AggregatedResult; with effective policy false it
never raises, returns the AggregatedResult, and merges the newly failed
target names into the session's persistent failed set. -/
theorem claim3_raise_or_merge (inv : List Host) (d : Data) (cfg : Config)
    (task : Host → TaskOut) (nw : Option Nat) (ro : Option Bool)
    (onG onF : Bool) :
    (resolveRaiseOnError ro cfg = true →
      (runResult inv d cfg task nw onG onF).failed = true →
      (runModel inv d cfg task nw ro onG onF).1 =
        Except.error (runResult inv d cfg task nw onG onF)) ∧
    (resolveRaiseOnError ro cfg = false →
      (runModel inv d cfg task nw ro onG onF).1 =
        Except.ok (runResult inv d cfg task nw onG onF) ∧
      (runModel inv d cfg task nw ro onG onF).2.2.failed_hosts =
        d.failed_hosts ∪
          (runResult inv d cfg task nw onG onF).failedNames.toFinset) := by
  constructor
  · intro h hf
    simp [runModel, h, hf]
  · intro h
    simp [runModel, h]

/-- Witness for C3: host "b" fails; under the raising default the aggregate
error carries the result, under the non-raising default the result is
returned and "b" is merged into the failed set. -/
theorem claim3_witness :
    ((runModel invAB dataClean cfgRaise taskFailB none none true false).1 =
      Except.error (runResult invAB dataClean cfgRaise taskFailB none true false)) ∧
    ((runModel invAB dataClean cfgNoRaise taskFailB none none true false).1 =
      Except.ok (runResult invAB dataClean cfgNoRaise taskFailB none true false) ∧
    (runModel invAB dataClean cfgNoRaise taskFailB none none true false).2.2.failed_hosts =
      dataClean.failed_hosts ∪
        (runResult invAB dataClean cfgNoRaise taskFailB none true false).failedNames.toFinset) :=
  ⟨(claim3_raise_or_merge invAB dataClean cfgRaise taskFailB none none
      true false).1 (by decide) (by decide),
   (claim3_raise_or_merge invAB dataClean cfgNoRaise taskFailB none none
      true false).2 (by decide)⟩

/-! ## Claim C1 -/

/-- C1 counterexample: inventory [a, b] with "a" in the failed set and both
on_good and on_failed true: the result keys come out good-then-failed as
["b", "a"], not in the target-collection iteration order ["a", "b"]. -/
theorem claim1_counterexample :
    (runResult invAB dataFailedA cfgNoRaise taskOk none true true).keys =
      ["b", "a"] ∧
    iterationOrderNames invAB dataFailedA.failed_hosts true true =
      ["a", "b"] ∧
    (runResult invAB dataFailedA cfgNoRaise taskOk none true true).keys ≠
      iterationOrderNames invAB dataFailedA.failed_hosts true true := by
  decide

/-- C1 (amended): for every run invocation and every value of num_workers,
the AggregatedResult contains exactly one Result per selected target; its
order is the target-collection iteration order restricted to the selected
good targets followed by the iteration order restricted to the selected
failed targets — the plain iteration order, except when on_good and
on_failed are both true and a failed target precedes a good one. -/
theorem claim1_result_per_target (inv : List Host) (d : Data) (cfg : Config)
    (task : Host → TaskOut) (nw : Option Nat) (onG onF : Bool)
    (hnd : (inv.map Host.name).Nodup) :
    (runResult inv d cfg task nw onG onF).keys =
      (if onG then
        (inv.filter (fun h => decide (h.name ∉ d.failed_hosts))).map Host.name
       else []) ++
      (if onF then
        (inv.filter (fun h => decide (h.name ∈ d.failed_hosts))).map Host.name
       else []) ∧
    (runResult inv d cfg task nw onG onF).keys.Nodup ∧
    ∀ h : Host, h ∈ inv → selectedHost d.failed_hosts onG onF h = true →
      (runResult inv d cfg task nw onG onF).keys.count h.name = 1 := by
  have hkeys := runResult_keys inv d cfg task nw onG onF
  have hnodk : (runResult inv d cfg task nw onG onF).keys.Nodup :=
    hkeys ▸ runOnList_map_name_nodup inv d.failed_hosts onG onF hnd
  refine ⟨?_, hnodk, ?_⟩
  · rw [hkeys]
    unfold runOnList
    rw [List.map_append]
    cases onG <;> cases onF <;> simp
  · intro h hmem hsel
    apply List.count_eq_one_of_mem hnodk
    rw [hkeys]
    refine List.mem_map.mpr ⟨h, ?_, rfl⟩
    rw [mem_runOnList]
    refine ⟨hmem, ?_⟩
    unfold selectedHost at hsel
    cases onG <;> cases onF <;> simp_all
    tauto

/-- Witness for C1 (amended): host "b" of the concrete inventory gets
exactly one Result. -/
theorem claim1_witness :
    (runResult invAB dataFailedA cfgNoRaise taskOk none true true).keys.count
      "b" = 1 :=
  (claim1_result_per_target invAB dataFailedA cfgNoRaise taskOk none true
    true (by decide)).2.2 hostB (by decide) (by decide)

/-! ## Claim C2 -/

/-- Whatever the policy branch taken at lines 212-215, a run never removes
a name from the shared failed set. -/
theorem mem_failed_applyRun (config : Config) (st : List Host × Data)
    (a : RunArgs) (n : String) (h : n ∈ st.2.failed_hosts) :
    n ∈ (applyRun config st a).2.failed_hosts := by
  unfold applyRun runModel
  by_cases hro : resolveRaiseOnError a.raiseOnError config <;> simp [hro]
  · exact h
  · exact Or.inl h

/-- Membership in the failed set survives any sequence of runs. -/
theorem applyRuns_failed_mono (config : Config) (calls : List RunArgs)
    (st : List Host × Data) (n : String) (h : n ∈ st.2.failed_hosts) :
    n ∈ (applyRuns config calls st).2.failed_hosts := by
  induction calls generalizing st with
  | nil => exact h
  | cons c cs ih =>
    simp only [applyRuns, List.foldl_cons] at *
    exact ih _ (mem_failed_applyRun config st c n h)

/-- C2: under a raise-on-error-false policy on every call, a target once in
the failed set stays there across every later run — a successful run never
removes it — and only the explicit `recover_host` or `reset_failed_hosts`
removes it. -/
theorem claim2_failed_persists (config : Config) (calls : List RunArgs)
    (inv : List Host) (d : Data) (n : String)
    (_hro : ∀ c ∈ calls, resolveRaiseOnError c.raiseOnError config = false)
    (h : n ∈ d.failed_hosts) :
    n ∈ (applyRuns config calls (inv, d)).2.failed_hosts ∧
    n ∉ ((applyRuns config calls (inv, d)).2.recover_host n).failed_hosts ∧
    n ∉ ((applyRuns config calls (inv, d)).2.reset_failed_hosts).failed_hosts := by
  refine ⟨applyRuns_failed_mono config calls (inv, d) n h, ?_, ?_⟩
  · exact Finset.not_mem_erase n _
  · simp [Data.reset_failed_hosts]

/-- Witness for C2: host "a" is failed; one fully successful run does not
recover it, while the explicit operations do. -/
theorem claim2_witness :
    "a" ∈ (applyRuns cfgNoRaise [⟨taskOk, none, none, true, false⟩]
      (invAB, dataFailedA)).2.failed_hosts ∧
    "a" ∉ ((applyRuns cfgNoRaise [⟨taskOk, none, none, true, false⟩]
      (invAB, dataFailedA)).2.recover_host "a").failed_hosts ∧
    "a" ∉ ((applyRuns cfgNoRaise [⟨taskOk, none, none, true, false⟩]
      (invAB, dataFailedA)).2.reset_failed_hosts).failed_hosts :=
  claim2_failed_persists cfgNoRaise [⟨taskOk, none, none, true, false⟩]
    invAB dataFailedA "a"
    (by
      intro c hc
      rw [List.mem_singleton] at hc
      subst hc
      decide)
    (by decide)

/-! ## Claim C8 -/

/-- With both selection flags on, every inventory host is on the working
list: `close_connections(on_good=True, on_failed=True)` reaches good and
failed targets alike. -/
theorem mem_runOnList_both (hosts : List Host) (failed : Finset String)
    (h : Host) (hmem : h ∈ hosts) : h ∈ runOnList hosts failed true true := by
  rw [mem_runOnList]
  exact ⟨hmem, by tauto⟩

/-- C8: for every scoped session and every body — every exit path,
exceptional or not — exiting runs `__exit__`, i.e. the connection-closing
run over both the good and the failed targets, after which every host of
the session's inventory has an empty connections table. -/
theorem claim8_scope_closes_connections {ε : Type} (inv : List Host)
    (d : Data) (config : Config)
    (body : List Host × Data → (List Host × Data) × Option ε) :
    (withSession inv d config body).1 =
      sessionExit (body (inv, d)).1.1 (body (inv, d)).1.2 config ∧
    ∀ h : Host, h ∈ (withSession inv d config body).1.1 →
      h.connections = [] := by
  refine ⟨rfl, fun h hmem => ?_⟩
  have : (withSession inv d config body).1.1 =
      ((body (inv, d)).1.1).map
        (fun x => if selectedHost (body (inv, d)).1.2.failed_hosts true true x
          then x.close_connections else x) := by
    by_cases hro : resolveRaiseOnError none config = true <;>
      simp [withSession, sessionExit, close_connections, runModel,
        close_connections_task, hro]
  rw [this] at hmem
  obtain ⟨x, -, hx⟩ := List.mem_map.mp hmem
  have hsel : selectedHost (body (inv, d)).1.2.failed_hosts true true x = true := by
    unfold selectedHost
    by_cases hc : x.name ∈ (body (inv, d)).1.2.failed_hosts <;> simp [hc]
  rw [hsel] at hx
  simp at hx
  rw [← hx]
  rfl

/-- Witness for C8: a body that opens a connection on each host and then
signals an exception; the scope still closes every connection. -/
theorem claim8_witness :
    Host.mk "a" [] ∈ (withSession invAB dataFailedA cfgNoRaise
      (fun st => ((st.1.map
        (fun h => { h with connections := "ssh" :: h.connections }), st.2),
        some ()))).1.1 ∧
    (Host.mk "a" []).connections = [] :=
  ⟨by decide,
   (claim8_scope_closes_connections invAB dataFailedA cfgNoRaise
      (fun st => ((st.1.map
        (fun h => { h with connections := "ssh" :: h.connections }), st.2),
        some ()))).2 (Host.mk "a" []) (by decide)⟩

/-! ## Store access lemmas -/

/-- Reading a just-appended object at the old length yields it. -/
theorem getD_concat_length {α : Type} (l : List α) (a d : α) :
    (l ++ [a]).getD l.length d = a := by
  rw [List.getD_eq_getElem?_getD, List.getElem?_concat_length]
  rfl

/-- Reading an updated slot yields the written object. -/
theorem getD_set_eq {α : Type} (l : List α) (i : Nat) (a d : α)
    (h : i < l.length) : (l.set i a).getD i d = a := by
  rw [List.getD_eq_getElem?_getD, List.getElem?_set_eq_of_lt a h]
  rfl

/-- Reading another slot after an update yields the old object. -/
theorem getD_set_ne {α : Type} (l : List α) (i j : Nat) (a d : α)
    (h : i ≠ j) : (l.set i a).getD j d = l.getD j d := by
  rw [List.getD_eq_getElem?_getD, List.getElem?_set_ne h,
    ← List.getD_eq_getElem?_getD]

/-- Reading below the old length after an allocation yields the old object. -/
theorem getD_append_left {α : Type} (l l' : List α) (i : Nat) (d : α)
    (h : i < l.length) : (l ++ l').getD i d = l.getD i d := by
  rw [List.getD_eq_getElem?_getD, List.getElem?_append_left h,
    ← List.getD_eq_getElem?_getD]

/-! ## Claim C10 -/

/-- C10: `filter` mutates the parent's inventory object: the clone
constructor (line 74, `self.inventory.nornir = self`) runs on the parent's
inventory before that inventory is replaced on the clone, so afterwards the
parent session's `inventory.nornir` points at the freshly allocated
filtered session, not at the parent. -/
theorem claim10_backref_repointed (st : Store) (sRef : Nat)
    (pred : Host → Bool) (hs : sRef < st.sessions.length)
    (hi : (st.sessions.getD sRef default).invRef < st.invs.length) :
    ((Nornir.filter st sRef pred).2.invs.getD
        (st.sessions.getD sRef default).invRef default).nornir =
      some (Nornir.filter st sRef pred).1 ∧
    (Nornir.filter st sRef pred).1 ≠ sRef ∧
    (Nornir.filter st sRef pred).1 = st.sessions.length := by
  refine ⟨?_, Nat.ne_of_gt hs, rfl⟩
  show (((st.invs.set (st.sessions.getD sRef default).invRef _) ++
      [_]).getD (st.sessions.getD sRef default).invRef default).nornir = _
  rw [getD_append_left _ _ _ _ (by rw [List.length_set]; exact hi),
    getD_set_eq _ _ _ _ hi]
  rfl

/-- Witness for C10 on the concrete one-session store. -/
theorem claim10_witness :
    ((Nornir.filter storeAB 0 (fun h => h.name == "b")).2.invs.getD
        (storeAB.sessions.getD 0 default).invRef default).nornir =
      some (Nornir.filter storeAB 0 (fun h => h.name == "b")).1 ∧
    (Nornir.filter storeAB 0 (fun h => h.name == "b")).1 ≠ 0 ∧
    (Nornir.filter storeAB 0 (fun h => h.name == "b")).1 =
      storeAB.sessions.length :=
  claim10_backref_repointed storeAB 0 (fun h => h.name == "b")
    (by decide) (by decide)

/-! ## Claim C6 -/

/-- One `filter` call leaves the hosts of every pre-existing inventory
object untouched (it only re-points a `nornir` back-reference and
allocates the new filtered inventory), and never shrinks the store. -/
theorem filter_preserves_hosts (st : Store) (sRef : Nat)
    (pred : Host → Bool) (i : Nat) (hi : i < st.invs.length) :
    (((Nornir.filter st sRef pred).2.invs.getD i default).hosts =
      (st.invs.getD i default).hosts) ∧
    st.invs.length ≤ (Nornir.filter st sRef pred).2.invs.length := by
  constructor
  · show (((st.invs.set (st.sessions.getD sRef default).invRef _) ++
        [_]).getD i default).hosts = _
    rw [getD_append_left _ _ _ _ (by rw [List.length_set]; exact hi)]
    by_cases hir : (st.sessions.getD sRef default).invRef = i
    · subst hir
      rw [getD_set_eq _ _ _ _ hi]
    · rw [getD_set_ne _ _ _ _ _ hir]
  · show st.invs.length ≤ ((st.invs.set _ _) ++ [_]).length
    rw [List.length_append, List.length_set]
    omega

/-- C6: any number of `filter` calls, on any sessions of the store and with
any criteria, never mutates a pre-existing inventory's target-collection:
the hosts of the parent session's inventory are the same lists before and
after, hence have the same member set and count. -/
theorem claim6_filter_no_mutation (st : Store)
    (calls : List (Nat × (Host → Bool))) (i : Nat)
    (hi : i < st.invs.length) :
    ((applyFilters st calls).invs.getD i default).hosts =
      (st.invs.getD i default).hosts := by
  induction calls generalizing st with
  | nil => rfl
  | cons c cs ih =>
    simp only [applyFilters, List.foldl_cons] at *
    rw [ih _ (lt_of_lt_of_le hi (filter_preserves_hosts st c.1 c.2 i hi).2),
      (filter_preserves_hosts st c.1 c.2 i hi).1]

/-- Witness for C6: two successive filter calls on the concrete store leave
the parent inventory's hosts untouched. -/
theorem claim6_witness :
    ((applyFilters storeAB
        [(0, fun h => h.name == "b"), (1, fun _ => false)]).invs.getD 0
      default).hosts = (storeAB.invs.getD 0 default).hosts :=
  claim6_filter_no_mutation storeAB
    [(0, fun h => h.name == "b"), (1, fun _ => false)] 0 (by decide)

/-! ## Claim C4 -/

/-- A run through the store under a non-raising effective policy returns
the AggregatedResult and merges its failed names into the Data object the
session references. -/
theorem runHeap_records_failures (st : Store) (c : Nat)
    (task : Host → TaskOut) (nw : Option Nat) (ro : Option Bool)
    (onG onF : Bool)
    (hd : (st.sessions.getD c default).dataRef < st.datas.length)
    (hro : resolveRaiseOnError ro (st.sessions.getD c default).config = false) :
    ∀ agg : AggregatedResult,
      (runHeap st c task nw ro onG onF).1 = Except.ok agg →
      ∀ n ∈ agg.failedNames,
        n ∈ ((runHeap st c task nw ro onG onF).2.datas.getD
          (st.sessions.getD c default).dataRef default).failed_hosts := by
  intro agg hagg n hn
  have h1 : (runHeap st c task nw ro onG onF).1 =
      Except.ok (runResult
        (st.invs.getD (st.sessions.getD c default).invRef default).hosts
        (st.datas.getD (st.sessions.getD c default).dataRef default)
        (st.sessions.getD c default).config task nw onG onF) := by
    simp only [runHeap, runModel, hro, Bool.false_eq_true, if_false]
  have hagg2 : runResult
      (st.invs.getD (st.sessions.getD c default).invRef default).hosts
      (st.datas.getD (st.sessions.getD c default).dataRef default)
      (st.sessions.getD c default).config task nw onG onF = agg :=
    Except.ok.inj (h1 ▸ hagg)
  have h2 : (runHeap st c task nw ro onG onF).2.datas.getD
      (st.sessions.getD c default).dataRef default =
      { st.datas.getD (st.sessions.getD c default).dataRef default with
        failed_hosts :=
          (st.datas.getD (st.sessions.getD c default).dataRef
            default).failed_hosts ∪
          (runResult
            (st.invs.getD (st.sessions.getD c default).invRef default).hosts
            (st.datas.getD (st.sessions.getD c default).dataRef default)
            (st.sessions.getD c default).config task nw onG
            onF).failedNames.toFinset } := by
    show (st.datas.set (st.sessions.getD c default).dataRef _).getD _ _ = _
    rw [getD_set_eq _ _ _ _ hd]
    simp only [runModel, hro, Bool.false_eq_true, if_false]
  rw [h2]
  exact Finset.mem_union_right _ (List.mem_toFinset.mpr (hagg2 ▸ hn))

/-- C4: the session returned by `filter` references the very same shared
Data object (failed set, dry-run flag) as the parent, so the failed names
recorded by a non-raising run on the filtered session land in the failed
set that the parent's own data reference — hence any later run on the
parent or on another filtered copy sharing it — reads. -/
theorem claim4_shared_state (st : Store) (sRef : Nat) (pred : Host → Bool)
    (task : Host → TaskOut) (nw : Option Nat) (ro : Option Bool)
    (onG onF : Bool)
    (hd : (st.sessions.getD sRef default).dataRef < st.datas.length)
    (hro : resolveRaiseOnError ro
      (st.sessions.getD sRef default).config = false) :
    ((Nornir.filter st sRef pred).2.sessions.getD
        (Nornir.filter st sRef pred).1 default).dataRef =
      (st.sessions.getD sRef default).dataRef ∧
    ∀ agg : AggregatedResult,
      (runHeap (Nornir.filter st sRef pred).2 (Nornir.filter st sRef pred).1
        task nw ro onG onF).1 = Except.ok agg →
      ∀ n ∈ agg.failedNames,
        n ∈ ((runHeap (Nornir.filter st sRef pred).2
            (Nornir.filter st sRef pred).1 task nw ro onG
            onF).2.datas.getD
          (st.sessions.getD sRef default).dataRef default).failed_hosts := by
  have hsess : ((Nornir.filter st sRef pred).2.sessions.getD
      (Nornir.filter st sRef pred).1 default) =
      ⟨(st.sessions.getD sRef default).dataRef, st.invs.length,
        (st.sessions.getD sRef default).config⟩ := by
    show ((st.sessions ++ [_]).set st.sessions.length _).getD
      st.sessions.length default = _
    rw [getD_set_eq _ _ _ _ (by simp), getD_concat_length, List.length_set]
  have hd2 : ((Nornir.filter st sRef pred).2.sessions.getD
      (Nornir.filter st sRef pred).1 default).dataRef <
      (Nornir.filter st sRef pred).2.datas.length := by
    rw [hsess]
    show _ < (st.datas.set _ _).length
    rw [List.length_set]
    exact hd
  have hro2 : resolveRaiseOnError ro
      ((Nornir.filter st sRef pred).2.sessions.getD
        (Nornir.filter st sRef pred).1 default).config = false := by
    rw [hsess]
    exact hro
  refine ⟨by rw [hsess], ?_⟩
  intro agg hagg n hn
  have hmem := runHeap_records_failures (Nornir.filter st sRef pred).2
    (Nornir.filter st sRef pred).1 task nw ro onG onF hd2 hro2 agg hagg n hn
  rwa [hsess] at hmem

/-- Witness for C4: on the concrete store, filtering to host "b" and
running an all-failing task under the non-raising policy records "b" in the
failed set read through the parent session's data reference. -/
theorem claim4_witness :
    ((Nornir.filter storeAB 0 (fun h => h.name == "b")).2.sessions.getD
        (Nornir.filter storeAB 0 (fun h => h.name == "b")).1 default).dataRef =
      (storeAB.sessions.getD 0 default).dataRef ∧
    "b" ∈ ((runHeap (Nornir.filter storeAB 0 (fun h => h.name == "b")).2
        (Nornir.filter storeAB 0 (fun h => h.name == "b")).1 taskFailAll
        none none true false).2.datas.getD
      (storeAB.sessions.getD 0 default).dataRef default).failed_hosts :=
  ⟨(claim4_shared_state storeAB 0 (fun h => h.name == "b") taskFailAll none
      none true false (by decide) (by decide)).1,
   (claim4_shared_state storeAB 0 (fun h => h.name == "b") taskFailAll none
      none true false (by decide) (by decide)).2
    ⟨[("b", ⟨"b", true⟩)]⟩ rfl "b" (by decide)⟩

end Nornir
